import Mathlib

/-!
Shallow embedding of the Langton's-Ant pheromone simulation
(src/TASK!_24CY10010_ArnavGawade-Fair.py).

The simulation core consists of three parallel per-cell fields (binary
color, pheromone owner id, pheromone strength), a list of ants, and a step
counter.  Each frame of the source's `run` loop moves every ant in order,
applies one pheromone decay pass, and increments the step counter; the
rendering and event handling around it are presentation only and are not
modelled.  Python floats are embedded as exact rationals (ℚ) and the
`random.random()` draws are passed in explicitly, one per ant move.
-/

/-- GRID_SIZE = 1000 in the source. -/
def GRID_SIZE : Int := 1000

/-- PHEROMONE_DECAY_STEPS = 5: pheromone influence lasts ~5 moves. -/
def PHEROMONE_DECAY_STEPS : Nat := 5

/-- DECAY_RATE = 1 / PHEROMONE_DECAY_STEPS, the linear decay step. -/
def DECAY_RATE : Rat := 1 / (PHEROMONE_DECAY_STEPS : Rat)

/-- DIRECTIONS = [(0,-1),(1,0),(0,1),(-1,0)]: unit vectors for
up(0), right(1), down(2), left(3); the y axis points down. -/
def DIRECTIONS : List (Int × Int) := [(0, -1), (1, 0), (0, 1), (-1, 0)]

/-- The three parallel grid arrays of the simulation, as functions from
(y, x) coordinates (the source indexes numpy arrays as `[y, x]`). -/
structure Grids where
  grid : Int → Int → Nat
  pheromones : Int → Int → Nat
  strengths : Int → Int → Rat

/-- An ant: position, direction (0..3) and its pheromone identity. -/
structure Ant where
  x : Int
  y : Int
  direction : Nat
  pheromone : Nat
deriving DecidableEq

/-- The probability of moving straight computed at the start of
`Ant.move`: default 0.5; `0.8 * strength` on the ant's own pheromone;
`0.2 * strength` on another ant's pheromone. -/
def moveStraightProb (antPher cellPher : Nat) (strength : Rat) : Rat :=
  if cellPher = antPher then 8 / 10 * strength
  else if cellPher ≠ 0 then 2 / 10 * strength
  else 1 / 2

/-- One call of `Ant.move`: read the occupied cell, decide the new
direction from the draw `r`, flip the cell color, deposit the ant's
pheromone at full strength, then step one cell in the new direction with
toroidal wraparound modulo `N`.  On naturals `(d + 3) % 4` equals the
source's Python `(d - 1) % 4`. -/
def Ant.move (a : Ant) (g : Grids) (r : Rat) (N : Int) : Ant × Grids :=
  let currentColor := g.grid a.y a.x
  let currentPheromone := g.pheromones a.y a.x
  let pheromoneStrength := g.strengths a.y a.x
  let p := moveStraightProb a.pheromone currentPheromone pheromoneStrength
  let newDirection :=
    if r < p then a.direction
    else (a.direction + (if currentColor = 0 then 1 else 3)) % 4
  let g' : Grids :=
    { grid := fun y x => if y = a.y ∧ x = a.x then currentColor ^^^ 1 else g.grid y x
      pheromones := fun y x => if y = a.y ∧ x = a.x then a.pheromone else g.pheromones y x
      strengths := fun y x => if y = a.y ∧ x = a.x then 1 else g.strengths y x }
  let d := DIRECTIONS.getD newDirection (0, 0)
  ({ x := (a.x + d.1) % N, y := (a.y + d.2) % N,
     direction := newDirection, pheromone := a.pheromone }, g')

/-- `np.clip(v, lo, hi)` for scalars: raise to `lo`, then cap at `hi`. -/
def clip (lo hi v : Rat) : Rat :=
  let m := if v < lo then lo else v
  if hi < m then hi else m

/-- Per-cell effect of `decay_pheromones` on the strength array:
cells with positive strength lose DECAY_RATE, then the array is clipped
into [0, 1]. -/
def decayStrength (s : Rat) : Rat :=
  clip 0 1 (if 0 < s then s - DECAY_RATE else s)

/-- `decay_pheromones`: decay the strength array, then clear the owner of
every cell whose strength is now exactly 0. -/
def Grids.decayPheromones (g : Grids) : Grids :=
  { grid := g.grid
    pheromones := fun y x =>
      if decayStrength (g.strengths y x) = 0 then 0 else g.pheromones y x
    strengths := fun y x => decayStrength (g.strengths y x) }

/-- The simulation state: the grids, the ants, and the step counter. -/
structure SimState where
  g : Grids
  ants : List Ant
  steps : Nat

/-- Move every ant in list order, threading the shared grids; each move
consumes the next random draw from `rs`. -/
def moveAll (N : Int) : List Ant → Grids → List Rat → List Ant × Grids
  | [], g, _ => ([], g)
  | a :: rest, g, rs =>
      let ag := a.move g (rs.headD 0) N
      let rg := moveAll N rest ag.2 rs.tail
      (ag.1 :: rg.1, rg.2)

/-- One iteration of the source's `run` loop, simulation core only:
move all ants, apply one decay pass, increment the step counter. -/
def stepAll (N : Int) (s : SimState) (rs : List Rat) : SimState :=
  let ag := moveAll N s.ants s.g rs
  { g := ag.2.decayPheromones, ants := ag.1, steps := s.steps + 1 }

/-- All-zero grids: `np.zeros` for the three arrays. -/
def zeroGrids : Grids :=
  { grid := fun _ _ => 0, pheromones := fun _ _ => 0, strengths := fun _ _ => 0 }

/-- The initial state built by the source constructor: zero grids and two
ants at (500,500) and (510,510) with pheromone ids 1 and 2; `d1` and `d2`
stand for the two `random.randint(0, 3)` initial directions. -/
def initSim (d1 d2 : Nat) : SimState :=
  { g := zeroGrids
    ants := [{ x := 500, y := 500, direction := d1, pheromone := 1 },
             { x := 510, y := 510, direction := d2, pheromone := 2 }]
    steps := 0 }

/-- Run `stepAll` once per element of `rss` (one list of draws per step). -/
def runSteps (N : Int) (s : SimState) : List (List Rat) → SimState
  | [] => s
  | rs :: rest => runSteps N (stepAll N s rs) rest

/-- The spec's §8 scenario state: side 10, one ant at (5,5) facing up(0)
with pheromone id 1, all cells color 0, no pheromone anywhere. -/
def scenarioSim : SimState :=
  { g := zeroGrids
    ants := [{ x := 5, y := 5, direction := 0, pheromone := 1 }]
    steps := 0 }

/-- An ant's position lies inside the toroidal domain of side `N`. -/
def InRange (N : Int) (a : Ant) : Prop :=
  0 ≤ a.x ∧ a.x < N ∧ 0 ≤ a.y ∧ a.y < N

/-- pheromoneStrength of every cell lies in [0, 1]. -/
def StrengthBounded (g : Grids) : Prop :=
  ∀ y x, 0 ≤ g.strengths y x ∧ g.strengths y x ≤ 1

/-- Every cell with pheromoneStrength 0 has pheromoneOwner 0. -/
def OwnerCleared (g : Grids) : Prop :=
  ∀ y x, g.strengths y x = 0 → g.pheromones y x = 0

/-- Modelled from the spec: the source constructor hard-codes its whole
configuration (grid side 1000, decay horizon 5, two fixed ants) and
performs no validation, so the construction-time configuration interface
of §6/§7 is absent from the source.  §7: a ConfigurationError is raised
at construction if `gridSize ≤ 0`, if two agents share a pheromone id, or
if `decaySteps ≤ 0`. -/
inductive ConfigurationError where
  | invalidGridSize
  | duplicatePheromoneId
  | invalidDecaySteps
deriving DecidableEq

/-- Modelled from the spec (§6): the configuration supplied once at
construction: grid side length, decay horizon, and the ordered agent list
(startX, startY, pheromoneId). -/
structure SimConfig where
  gridSize : Int
  decaySteps : Int
  agents : List (Int × Int × Nat)

/-- Modelled from the spec (§7): fail-fast construction.  Validation is
checked before any state is built, so an invalid configuration produces
no partial simulation; a valid one yields the full initial state. -/
def mkSimulation (c : SimConfig) : Except ConfigurationError SimState :=
  if c.gridSize ≤ 0 then .error .invalidGridSize
  else if ¬ (c.agents.map (fun t => t.2.2)).Nodup then .error .duplicatePheromoneId
  else if c.decaySteps ≤ 0 then .error .invalidDecaySteps
  else .ok
    { g := zeroGrids
      ants := c.agents.map
        (fun t => { x := t.1, y := t.2.1, direction := 0, pheromone := t.2.2 })
      steps := 0 }

/-- IEEE-754 binary64 rounding (round to nearest, ties to even) of a
positive rational, in exact rational arithmetic: `e` is the binade
exponent, floored at -1022 so the subnormal range keeps the fixed unit
2^(-1074) in the last place; `2^(e-52)` is the unit in the last place.
Overflow to infinity is not modelled — every value in this development
is at most 1. -/
def roundDoubleP (q : Rat) : Rat :=
  let e := max (Int.log 2 q) (-1022)
  let n := ⌊q * 2 ^ (52 - e)⌋
  let frac := q * 2 ^ (52 - e) - n
  let m := if frac < 1/2 then n
           else if 1/2 < frac then n + 1
           else if n % 2 = 0 then n else n + 1
  m / 2 ^ (52 - e)

/-- binary64 rounding of an arbitrary rational; the binary64 grid is
symmetric under negation. -/
def roundDouble (q : Rat) : Rat :=
  if q = 0 then 0
  else if 0 < q then roundDoubleP q
  else -roundDoubleP (-q)

/-- The value the program actually stores for DECAY_RATE = 1/5: the
binary64 double nearest to 0.2, namely 3602879701896397/2^54, slightly
above 1/5. -/
def DECAY_RATE_F : Rat := roundDouble DECAY_RATE

/-- Per-cell decay step in the source's float64 semantics: the
pheromone_strengths array holds binary64 doubles, so numpy's subtraction
rounds the exact difference back to binary64 (the `> 0` comparison and
np.clip are exact).  `decayStrength` is the same map with the subtraction
taken exactly; the two agree on a single subtraction from full strength
(1.0 - 0.2 rounds to the 0.8 double) but not on the iterated chain. -/
def decayStrengthF (s : Rat) : Rat :=
  clip 0 1 (if 0 < s then roundDouble (s - DECAY_RATE_F) else s)

lemma decayPheromones_strengths (g : Grids) (y x : Int) :
    g.decayPheromones.strengths y x = decayStrength (g.strengths y x) := rfl

lemma decayStrength_bounds (s : Rat) : 0 ≤ decayStrength s ∧ decayStrength s ≤ 1 := by
  simp only [decayStrength, clip]
  split_ifs <;> constructor <;> linarith

lemma stepAll_strengthBounded (N : Int) (s : SimState) (rs : List Rat) :
    StrengthBounded (stepAll N s rs).g := by
  intro y x
  exact decayStrength_bounds _

lemma runSteps_strengthBounded (N : Int) (rss : List (List Rat)) (s : SimState)
    (h : StrengthBounded s.g) : StrengthBounded (runSteps N s rss).g := by
  induction rss generalizing s with
  | nil => exact h
  | cons rs rest ih => exact ih _ (stepAll_strengthBounded N s rs)

lemma log2_eq (q : Rat) (e : Int) (h0 : 0 < q)
    (h1 : (2:Rat) ^ e ≤ q) (h2 : q < (2:Rat) ^ (e + 1)) :
    Int.log 2 q = e := by
  have hA := Int.zpow_log_le_self (b := 2) (R := Rat) one_lt_two h0
  have hB := Int.lt_zpow_succ_log_self (b := 2) (R := Rat) one_lt_two q
  rw [Nat.cast_ofNat] at hA hB
  by_contra hne
  rcases lt_or_gt_of_ne hne with hlt | hgt
  · have h4 : (2:Rat) ^ (Int.log 2 q + 1) ≤ (2:Rat) ^ e :=
      zpow_le_zpow_right₀ one_le_two (by omega)
    linarith
  · have h4 : (2:Rat) ^ (e + 1) ≤ (2:Rat) ^ (Int.log 2 q) :=
      zpow_le_zpow_right₀ one_le_two (by omega)
    linarith

lemma roundDoubleP_eval_exact (q : Rat) (e k n : Int)
    (hlog : Int.log 2 q = e) (he : -1022 ≤ e) (hk : 52 - e = k)
    (hn : q * 2 ^ k = (n:Rat)) : roundDoubleP q = q := by
  simp only [roundDoubleP]
  rw [hlog, max_eq_left he, hk, hn, Int.floor_intCast, sub_self,
    if_pos (by norm_num : (0:Rat) < 1/2)]
  rw [div_eq_iff (zpow_ne_zero _ two_ne_zero)]
  exact hn.symm

lemma roundDoubleP_eval_tie_odd (q : Rat) (e k n : Int)
    (hlog : Int.log 2 q = e) (he : -1022 ≤ e) (hk : 52 - e = k)
    (hn : q * 2 ^ k = (n:Rat) + 1/2) (hodd : n % 2 = 1) :
    roundDoubleP q = ((n:Rat) + 1) / 2 ^ k := by
  have hfl : ⌊(n:Rat) + 1/2⌋ = n := by
    rw [Int.floor_eq_iff]
    constructor
    · linarith
    · linarith
  simp only [roundDoubleP]
  rw [hlog, max_eq_left he, hk, hn, hfl]
  have hfrac : ((n:Rat) + 1/2) - (n:Rat) = 1/2 := by ring
  rw [hfrac, if_neg (lt_irrefl (1/2 : Rat)), if_neg (lt_irrefl (1/2 : Rat)),
    if_neg (by rw [hodd]; norm_num : ¬ n % 2 = 0)]
  push_cast
  ring

lemma roundDoubleP_eval_up (q : Rat) (e k n : Int)
    (hlog : Int.log 2 q = e) (he : -1022 ≤ e) (hk : 52 - e = k)
    (hlo : (n:Rat) + 1/2 < q * 2 ^ k) (hhi : q * 2 ^ k < (n:Rat) + 1) :
    roundDoubleP q = ((n:Rat) + 1) / 2 ^ k := by
  have hfl : ⌊q * 2 ^ k⌋ = n := by
    rw [Int.floor_eq_iff]
    constructor
    · linarith
    · linarith
  simp only [roundDoubleP]
  rw [hlog, max_eq_left he, hk, hfl]
  rw [if_neg (by linarith : ¬ q * 2 ^ k - (n:Rat) < 1/2),
    if_pos (by linarith : (1/2:Rat) < q * 2 ^ k - (n:Rat))]
  push_cast
  ring

lemma roundDouble_pos (q : Rat) (h0 : 0 < q) : roundDouble q = roundDoubleP q := by
  unfold roundDouble
  rw [if_neg (ne_of_gt h0), if_pos h0]

lemma roundDouble_neg (q : Rat) (h0 : q < 0) : roundDouble q = -roundDoubleP (-q) := by
  unfold roundDouble
  rw [if_neg (ne_of_lt h0), if_neg (not_lt.mpr (le_of_lt h0))]

lemma DECAY_RATE_F_eq : DECAY_RATE_F = 3602879701896397 / 2 ^ 54 := by
  have hq : DECAY_RATE = 1/5 := by
    norm_num [DECAY_RATE, PHEROMONE_DECAY_STEPS]
  have hlog : Int.log 2 ((1:Rat)/5) = -3 :=
    log2_eq _ _ (by norm_num) (by norm_num) (by norm_num)
  unfold DECAY_RATE_F roundDouble
  rw [hq, if_neg (by norm_num), if_pos (by norm_num),
    roundDoubleP_eval_up (1/5) (-3) 55 7205759403792793 hlog (by norm_num)
      (by norm_num) (by norm_num) (by norm_num)]
  norm_num

lemma decayF_step1 : decayStrengthF 1 = 3602879701896397 / 2 ^ 52 := by
  unfold decayStrengthF
  rw [if_pos (by norm_num : (0:Rat) < 1), DECAY_RATE_F_eq,
    (by norm_num : (1:Rat) - 3602879701896397 / 2 ^ 54 = 14411518807585587 / 2 ^ 54),
    roundDouble_pos _ (by norm_num),
    roundDoubleP_eval_tie_odd _ (-1) 53 7205759403792793
      (log2_eq _ _ (by norm_num) (by norm_num) (by norm_num))
      (by norm_num) (by norm_num) (by norm_num) (by norm_num)]
  norm_num [clip]

lemma decayF_step2 :
    decayStrengthF (3602879701896397 / 2 ^ 52) = 5404319552844596 / 2 ^ 53 := by
  unfold decayStrengthF
  rw [if_pos (by norm_num : (0:Rat) < 3602879701896397 / 2 ^ 52), DECAY_RATE_F_eq,
    (by norm_num : (3602879701896397:Rat) / 2 ^ 52 - 3602879701896397 / 2 ^ 54 =
      10808639105689191 / 2 ^ 54),
    roundDouble_pos _ (by norm_num),
    roundDoubleP_eval_tie_odd _ (-1) 53 5404319552844595
      (log2_eq _ _ (by norm_num) (by norm_num) (by norm_num))
      (by norm_num) (by norm_num) (by norm_num) (by norm_num)]
  norm_num [clip]

lemma decayF_step3 :
    decayStrengthF (5404319552844596 / 2 ^ 53) = 7205759403792795 / 2 ^ 54 := by
  unfold decayStrengthF
  rw [if_pos (by norm_num : (0:Rat) < 5404319552844596 / 2 ^ 53), DECAY_RATE_F_eq,
    (by norm_num : (5404319552844596:Rat) / 2 ^ 53 - 3602879701896397 / 2 ^ 54 =
      7205759403792795 / 2 ^ 54),
    roundDouble_pos _ (by norm_num),
    roundDoubleP_eval_exact _ (-2) 54 7205759403792795
      (log2_eq _ _ (by norm_num) (by norm_num) (by norm_num))
      (by norm_num) (by norm_num) (by norm_num)]
  norm_num [clip]

lemma decayF_step4 :
    decayStrengthF (7205759403792795 / 2 ^ 54) = 3602879701896398 / 2 ^ 54 := by
  unfold decayStrengthF
  rw [if_pos (by norm_num : (0:Rat) < 7205759403792795 / 2 ^ 54), DECAY_RATE_F_eq,
    (by norm_num : (7205759403792795:Rat) / 2 ^ 54 - 3602879701896397 / 2 ^ 54 =
      3602879701896398 / 2 ^ 54),
    roundDouble_pos _ (by norm_num),
    roundDoubleP_eval_exact _ (-3) 55 7205759403792796
      (log2_eq _ _ (by norm_num) (by norm_num) (by norm_num))
      (by norm_num) (by norm_num) (by norm_num)]
  norm_num [clip]

lemma decayF_step5 :
    decayStrengthF (3602879701896398 / 2 ^ 54) = 1 / 2 ^ 54 := by
  unfold decayStrengthF
  rw [if_pos (by norm_num : (0:Rat) < 3602879701896398 / 2 ^ 54), DECAY_RATE_F_eq,
    (by norm_num : (3602879701896398:Rat) / 2 ^ 54 - 3602879701896397 / 2 ^ 54 =
      1 / 2 ^ 54),
    roundDouble_pos _ (by norm_num),
    roundDoubleP_eval_exact _ (-54) 106 4503599627370496
      (log2_eq _ _ (by norm_num) (by norm_num) (by norm_num))
      (by norm_num) (by norm_num) (by norm_num)]
  norm_num [clip]

lemma decayF_step6 : decayStrengthF (1 / 2 ^ 54) = 0 := by
  unfold decayStrengthF
  rw [if_pos (by norm_num : (0:Rat) < 1 / 2 ^ 54), DECAY_RATE_F_eq,
    (by norm_num : (1:Rat) / 2 ^ 54 - 3602879701896397 / 2 ^ 54 =
      -(3602879701896396 / 2 ^ 54)),
    roundDouble_neg _ (by norm_num), neg_neg,
    roundDoubleP_eval_exact _ (-3) 55 7205759403792792
      (log2_eq _ _ (by norm_num) (by norm_num) (by norm_num))
      (by norm_num) (by norm_num) (by norm_num)]
  norm_num [clip]

/-- C3: the claimed decay horizon is the program's evident intent
(DECAY_RATE is defined as 1 / PHEROMONE_DECAY_STEPS and the decay
docstring says strength is reduced over 5 steps), but the float64 code
misses it: under binary64 arithmetic a cell at full strength 1 reads
2^-54 = 5.551115123125783e-17 — not 0 — after PHEROMONE_DECAY_STEPS = 5
consecutive decay calls with no re-deposit, and reaches exactly 0 only
on the 6th call. -/
theorem float_decay_residue :
    decayStrengthF^[PHEROMONE_DECAY_STEPS] 1 = 1 / 2 ^ 54 ∧
    ¬ decayStrengthF^[PHEROMONE_DECAY_STEPS] 1 = 0 ∧
    decayStrengthF^[PHEROMONE_DECAY_STEPS + 1] 1 = 0 := by
  have h5 : decayStrengthF^[PHEROMONE_DECAY_STEPS] 1 = 1 / 2 ^ 54 := by
    rw [show PHEROMONE_DECAY_STEPS = 4 + 1 from rfl, Function.iterate_succ_apply,
      show (4:Nat) = 3 + 1 from rfl, Function.iterate_succ_apply,
      show (3:Nat) = 2 + 1 from rfl, Function.iterate_succ_apply,
      show (2:Nat) = 1 + 1 from rfl, Function.iterate_succ_apply,
      Function.iterate_one, decayF_step1, decayF_step2, decayF_step3,
      decayF_step4, decayF_step5]
  refine ⟨h5, ?_, ?_⟩
  · rw [h5]
    norm_num
  · rw [Function.iterate_succ_apply', h5, decayF_step6]

/-- C1 counterexample: in the spec's §8 scenario, the agent deposits full
strength 1 into cell (5,5) during the stepAll call (the grids after the
move phase read 1 there), yet after the very same stepAll call the cell no
longer reads 1 — the fresh deposit was decayed within the step. -/
theorem fresh_deposit_decayed_same_call :
    (moveAll 10 scenarioSim.ants scenarioSim.g [9/10]).2.strengths 5 5 = 1 ∧
    ¬ (stepAll 10 scenarioSim [9/10]).g.strengths 5 5 = 1 := by
  constructor
  · norm_num [moveAll, Ant.move, moveStraightProb, scenarioSim, zeroGrids, DIRECTIONS]
  · have h : (stepAll 10 scenarioSim [9/10]).g.strengths 5 5 = 4/5 := by
      norm_num [stepAll, moveAll, Ant.move, moveStraightProb, scenarioSim, zeroGrids,
        Grids.decayPheromones, decayStrength, clip, DECAY_RATE, PHEROMONE_DECAY_STEPS,
        DIRECTIONS]
    rw [h]
    norm_num

/-- C1 amended: a pheromone freshly deposited during a stepAll call IS
decayed by that same call: for a single-agent simulation the cell the
agent deposits into (its pre-move position) reads 1 - 1/5 = 4/5 = 0.8
immediately after the stepAll call that laid it down. -/
theorem fresh_deposit_strength_after_stepAll (g : Grids) (a : Ant) (r : Rat)
    (N : Int) (k : Nat) :
    (stepAll N { g := g, ants := [a], steps := k } [r]).g.strengths a.y a.x = 4/5 := by
  simp [stepAll, moveAll, Ant.move, Grids.decayPheromones, decayStrength, clip,
    DECAY_RATE, PHEROMONE_DECAY_STEPS]
  norm_num

/-- C2 counterexample: in the §8 scenario, after one stepAll call with
draw r = 9/10 the cell (5,5) does NOT have pheromoneStrength 1. -/
theorem scenario_strength_not_one :
    ¬ (stepAll 10 scenarioSim [9/10]).g.strengths 5 5 = 1 := by
  have h : (stepAll 10 scenarioSim [9/10]).g.strengths 5 5 = 4/5 := by
    norm_num [stepAll, moveAll, Ant.move, moveStraightProb, scenarioSim, zeroGrids,
      Grids.decayPheromones, decayStrength, clip, DECAY_RATE, PHEROMONE_DECAY_STEPS,
      DIRECTIONS]
  rw [h]
  norm_num

/-- C2 amended: in the §8 scenario (N = 10, one agent at (5,5) facing up
with pheromone id 1, all colors 0, no pheromone), one stepAll call with
draw r = 9/10 leaves the agent with direction 1 (right) at (6,5), and
cell (5,5) with color 1, pheromoneOwner 1, and pheromoneStrength 4/5
(the same-step decay pass reduces the fresh full-strength deposit). -/
theorem scenario_first_step :
    (stepAll 10 scenarioSim [9/10]).ants =
      [{ x := 6, y := 5, direction := 1, pheromone := 1 }] ∧
    (stepAll 10 scenarioSim [9/10]).g.grid 5 5 = 1 ∧
    (stepAll 10 scenarioSim [9/10]).g.pheromones 5 5 = 1 ∧
    (stepAll 10 scenarioSim [9/10]).g.strengths 5 5 = 4/5 := by
  refine ⟨?_, ?_, ?_, ?_⟩ <;>
    norm_num [stepAll, moveAll, Ant.move, moveStraightProb, scenarioSim, zeroGrids,
      Grids.decayPheromones, decayStrength, clip, DECAY_RATE, PHEROMONE_DECAY_STEPS,
      DIRECTIONS]

/-- Grids whose every cell has a stale owner: pheromoneOwner 2 but
pheromoneStrength 0 (and color 0). -/
def staleGrids : Grids :=
  { grid := fun _ _ => 0, pheromones := fun _ _ => 2, strengths := fun _ _ => 0 }

lemma move_direction_eq (a : Ant) (g : Grids) (r : Rat) (N : Int) :
    (a.move g r N).1.direction =
      if r < moveStraightProb a.pheromone (g.pheromones a.y a.x) (g.strengths a.y a.x)
      then a.direction
      else (a.direction + (if g.grid a.y a.x = 0 then 1 else 3)) % 4 := rfl

/-- C4 counterexample: an agent with id 1 on a cell with pheromoneStrength
0 but stale pheromoneOwner 2 computes moveStraightProbability 0, not 0.5,
and with draw r = 2/5 it turns (direction 1) where on a genuinely
unscented cell it would move straight (direction 0). -/
theorem stale_owner_counterexample :
    moveStraightProb 1 2 0 = 0 ∧
    ¬ moveStraightProb 1 2 0 = 1 / 2 ∧
    (Ant.move { x := 5, y := 5, direction := 0, pheromone := 1 }
      staleGrids (2/5) 10).1.direction = 1 ∧
    (Ant.move { x := 5, y := 5, direction := 0, pheromone := 1 }
      zeroGrids (2/5) 10).1.direction = 0 := by
  refine ⟨?_, ?_, ?_, ?_⟩ <;>
    norm_num [moveStraightProb, Ant.move, staleGrids, zeroGrids, DIRECTIONS]

/-- C4 amended: on a cell with pheromoneStrength 0 and nonzero
pheromoneOwner the computed moveStraightProbability is 0 (0.8·0 or 0.2·0),
not the unscented 0.5, so for every draw r ≥ 0 the agent takes the turn
branch; such a cell is not treated as scent-free. -/
theorem zero_strength_stale_owner (a : Ant) (g : Grids) (r : Rat) (N : Int)
    (hs : g.strengths a.y a.x = 0) (ho : g.pheromones a.y a.x ≠ 0) (hr : 0 ≤ r) :
    moveStraightProb a.pheromone (g.pheromones a.y a.x) (g.strengths a.y a.x) = 0 ∧
    (a.move g r N).1.direction =
      (a.direction + (if g.grid a.y a.x = 0 then 1 else 3)) % 4 := by
  have hp : moveStraightProb a.pheromone (g.pheromones a.y a.x)
      (g.strengths a.y a.x) = 0 := by
    rw [hs]
    unfold moveStraightProb
    by_cases h1 : g.pheromones a.y a.x = a.pheromone
    · rw [if_pos h1]
      norm_num
    · rw [if_neg h1, if_pos ho]
      norm_num
  refine ⟨hp, ?_⟩
  rw [move_direction_eq, hp, if_neg (not_lt.mpr hr)]

/-- Witness for C4's amended theorem on staleGrids with draw r = 0. -/
theorem zero_strength_stale_owner_witness :
    staleGrids.strengths 5 5 = 0 ∧ staleGrids.pheromones 5 5 ≠ 0 ∧ (0:Rat) ≤ 0 ∧
    (moveStraightProb 1 (staleGrids.pheromones 5 5) (staleGrids.strengths 5 5) = 0 ∧
     (Ant.move { x := 5, y := 5, direction := 0, pheromone := 1 }
        staleGrids 0 10).1.direction =
       (0 + (if staleGrids.grid 5 5 = 0 then 1 else 3)) % 4) :=
  ⟨rfl, by norm_num [staleGrids], le_refl 0,
   zero_strength_stale_owner { x := 5, y := 5, direction := 0, pheromone := 1 }
     staleGrids 0 10 rfl (by norm_num [staleGrids]) (le_refl 0)⟩

/-- A concrete valid configuration and the state its construction yields. -/
def cfgExample : SimConfig :=
  { gridSize := 10, decaySteps := 5, agents := [(5, 5, 1)] }

/-- The simulation state built from cfgExample. -/
def simExample : SimState :=
  { g := zeroGrids
    ants := [{ x := 5, y := 5, direction := 0, pheromone := 1 }]
    steps := 0 }

/-- C5 (construction modelled from the spec, the source constructor being
unconfigurable): mkSimulation returns a ConfigurationError exactly when
gridSize ≤ 0, decaySteps ≤ 0, or two agents share a pheromone id; on
success it returns the complete initial state (zero grids, step 0, all
configured agents) — no partial simulation.  Every per-step operation of
the embedding is a total function, so no step can fail after that. -/
theorem mkSimulation_error_iff (c : SimConfig) :
    ((∃ e, mkSimulation c = Except.error e) ↔
      (c.gridSize ≤ 0 ∨ c.decaySteps ≤ 0 ∨
        ¬ (c.agents.map (fun t => t.2.2)).Nodup)) ∧
    (∀ s, mkSimulation c = Except.ok s →
      s.g = zeroGrids ∧ s.steps = 0 ∧
      s.ants = c.agents.map
        (fun t => { x := t.1, y := t.2.1, direction := 0, pheromone := t.2.2 })) := by
  by_cases h1 : c.gridSize ≤ 0
  · have hmk : mkSimulation c = Except.error .invalidGridSize := by
      unfold mkSimulation
      rw [if_pos h1]
    rw [hmk]
    exact ⟨⟨fun _ => Or.inl h1, fun _ => ⟨_, rfl⟩⟩,
           fun s hs => Except.noConfusion hs⟩
  by_cases h2 : (c.agents.map (fun t => t.2.2)).Nodup
  · by_cases h3 : c.decaySteps ≤ 0
    · have hmk : mkSimulation c = Except.error .invalidDecaySteps := by
        unfold mkSimulation
        rw [if_neg h1, if_neg (not_not.mpr h2), if_pos h3]
      rw [hmk]
      exact ⟨⟨fun _ => Or.inr (Or.inl h3), fun _ => ⟨_, rfl⟩⟩,
             fun s hs => Except.noConfusion hs⟩
    · have hmk : mkSimulation c = Except.ok
          { g := zeroGrids
            ants := c.agents.map
              (fun t => { x := t.1, y := t.2.1, direction := 0, pheromone := t.2.2 })
            steps := 0 } := by
        unfold mkSimulation
        rw [if_neg h1, if_neg (not_not.mpr h2), if_neg h3]
      rw [hmk]
      constructor
      · constructor
        · rintro ⟨e, he⟩
          exact Except.noConfusion he
        · rintro (h | h | h)
          · exact absurd h h1
          · exact absurd h h3
          · exact absurd h2 h
      · intro s hs
        injection hs with hh
        subst hh
        exact ⟨rfl, rfl, rfl⟩
  · have hmk : mkSimulation c = Except.error .duplicatePheromoneId := by
      unfold mkSimulation
      rw [if_neg h1, if_pos h2]
    rw [hmk]
    exact ⟨⟨fun _ => Or.inr (Or.inr h2), fun _ => ⟨_, rfl⟩⟩,
           fun s hs => Except.noConfusion hs⟩

/-- Witness for C5 at the valid configuration cfgExample. -/
theorem mkSimulation_error_iff_witness :
    mkSimulation cfgExample = Except.ok simExample ∧
    (simExample.g = zeroGrids ∧ simExample.steps = 0 ∧
     simExample.ants = cfgExample.agents.map
       (fun t => { x := t.1, y := t.2.1, direction := 0, pheromone := t.2.2 })) :=
  ⟨rfl, (mkSimulation_error_iff cfgExample).2 simExample rfl⟩

/-- C6: with o and s the owner and strength of the agent's cell, the
move-straight probability is 0.8·s on the agent's own scent, 0.2·s on a
foreign nonzero scent, and 0.5 when o = 0 (agents have nonzero ids); the
move keeps the old direction when r < p, and otherwise turns clockwise
((d+1) % 4) on color 0 and counter-clockwise ((d+3) % 4, which is
(d-1) mod 4) on color 1. -/
theorem move_direction_rule (a : Ant) (g : Grids) (r : Rat) (N : Int)
    (hp : a.pheromone ≠ 0) :
    (g.pheromones a.y a.x = a.pheromone →
      moveStraightProb a.pheromone (g.pheromones a.y a.x) (g.strengths a.y a.x) =
        8 / 10 * g.strengths a.y a.x) ∧
    (g.pheromones a.y a.x ≠ 0 → g.pheromones a.y a.x ≠ a.pheromone →
      moveStraightProb a.pheromone (g.pheromones a.y a.x) (g.strengths a.y a.x) =
        2 / 10 * g.strengths a.y a.x) ∧
    (g.pheromones a.y a.x = 0 →
      moveStraightProb a.pheromone (g.pheromones a.y a.x) (g.strengths a.y a.x) =
        1 / 2) ∧
    (r < moveStraightProb a.pheromone (g.pheromones a.y a.x) (g.strengths a.y a.x) →
      (a.move g r N).1.direction = a.direction) ∧
    (¬ r < moveStraightProb a.pheromone (g.pheromones a.y a.x) (g.strengths a.y a.x) →
      g.grid a.y a.x = 0 → (a.move g r N).1.direction = (a.direction + 1) % 4) ∧
    (¬ r < moveStraightProb a.pheromone (g.pheromones a.y a.x) (g.strengths a.y a.x) →
      g.grid a.y a.x = 1 → (a.move g r N).1.direction = (a.direction + 3) % 4) := by
  refine ⟨?_, ?_, ?_, ?_, ?_, ?_⟩
  · intro h
    unfold moveStraightProb
    rw [if_pos h]
  · intro h h2
    unfold moveStraightProb
    rw [if_neg h2, if_pos h]
  · intro h
    unfold moveStraightProb
    rw [if_neg (fun hEq => hp (hEq.symm.trans h)), if_neg (not_not.mpr h)]
  · intro h
    rw [move_direction_eq, if_pos h]
  · intro h hc
    rw [move_direction_eq, if_neg h, hc]
    simp
  · intro h hc
    rw [move_direction_eq, if_neg h, hc]
    simp

/-- Witness for C6: unscented cell, id-1 agent, draw 9/10 ≥ 0.5: the
probability is 1/2 and the agent turns clockwise from up to right. -/
theorem move_direction_rule_witness :
    moveStraightProb 1 (zeroGrids.pheromones 5 5) (zeroGrids.strengths 5 5) = 1 / 2 ∧
    (Ant.move { x := 5, y := 5, direction := 0, pheromone := 1 }
      zeroGrids (9/10) 10).1.direction = (0 + 1) % 4 :=
  ⟨(move_direction_rule { x := 5, y := 5, direction := 0, pheromone := 1 }
      zeroGrids (9/10) 10 (by norm_num)).2.2.1 rfl,
   (move_direction_rule { x := 5, y := 5, direction := 0, pheromone := 1 }
      zeroGrids (9/10) 10 (by norm_num)).2.2.2.2.1
     (by norm_num [moveStraightProb, zeroGrids]) rfl⟩

lemma decayPheromones_pheromones (g : Grids) (y x : Int) :
    g.decayPheromones.pheromones y x =
      if decayStrength (g.strengths y x) = 0 then 0 else g.pheromones y x := rfl

lemma stepAll_g (N : Int) (s : SimState) (rs : List Rat) :
    (stepAll N s rs).g = (moveAll N s.ants s.g rs).2.decayPheromones := rfl

lemma stepAll_ownerCleared (N : Int) (s : SimState) (rs : List Rat) :
    OwnerCleared (stepAll N s rs).g := by
  intro y x h
  rw [stepAll_g] at h ⊢
  rw [decayPheromones_strengths] at h
  rw [decayPheromones_pheromones, if_pos h]

lemma runSteps_ownerCleared (N : Int) (rss : List (List Rat)) (s : SimState)
    (h : OwnerCleared s.g) : OwnerCleared (runSteps N s rss).g := by
  induction rss generalizing s with
  | nil => exact h
  | cons rs rest ih => exact ih _ (stepAll_ownerCleared N s rs)

/-- C7: in every state reachable from the initial state by stepAll calls,
every cell with pheromoneStrength 0 has pheromoneOwner 0. -/
theorem owner_invariant (d1 d2 : Nat) (rss : List (List Rat)) (y x : Int)
    (h : (runSteps GRID_SIZE (initSim d1 d2) rss).g.strengths y x = 0) :
    (runSteps GRID_SIZE (initSim d1 d2) rss).g.pheromones y x = 0 := by
  refine runSteps_ownerCleared GRID_SIZE rss (initSim d1 d2) ?_ y x h
  intro y x _
  rfl

/-- Witness for C7 at the initial state itself. -/
theorem owner_invariant_witness :
    (runSteps GRID_SIZE (initSim 0 0) []).g.strengths 0 0 = 0 ∧
    (runSteps GRID_SIZE (initSim 0 0) []).g.pheromones 0 0 = 0 :=
  ⟨rfl, owner_invariant 0 0 [] 0 0 rfl⟩

/-- C8: one Ant.move mutates exactly the cell at the ant's pre-move
position — flipping its color, setting its owner to the ant's id and its
strength to 1 — and leaves every other cell of all three fields unchanged;
the ant's pheromone identity is untouched (only position and direction
change, per the explicit formulas). -/
theorem move_frame (a : Ant) (g : Grids) (r : Rat) (N : Int) (y x : Int) :
    ((a.move g r N).2.grid y x =
      if y = a.y ∧ x = a.x then g.grid a.y a.x ^^^ 1 else g.grid y x) ∧
    ((a.move g r N).2.pheromones y x =
      if y = a.y ∧ x = a.x then a.pheromone else g.pheromones y x) ∧
    ((a.move g r N).2.strengths y x =
      if y = a.y ∧ x = a.x then 1 else g.strengths y x) ∧
    (a.move g r N).1.pheromone = a.pheromone :=
  ⟨rfl, rfl, rfl, rfl⟩

lemma move_inRange (a : Ant) (g : Grids) (r : Rat) (N : Int) (hN : 0 < N) :
    InRange N (a.move g r N).1 :=
  ⟨Int.emod_nonneg _ (ne_of_gt hN), Int.emod_lt_of_pos _ hN,
   Int.emod_nonneg _ (ne_of_gt hN), Int.emod_lt_of_pos _ hN⟩

lemma moveAll_inRange (N : Int) (hN : 0 < N) (as : List Ant) :
    ∀ (g : Grids) (rs : List Rat) (b : Ant),
      b ∈ (moveAll N as g rs).1 → InRange N b := by
  induction as with
  | nil =>
      intro g rs b hb
      simp [moveAll] at hb
  | cons a rest ih =>
      intro g rs b hb
      simp only [moveAll, List.mem_cons] at hb
      rcases hb with hb | hb
      · rw [hb]
        exact move_inRange a g (rs.headD 0) N hN
      · exact ih _ _ _ hb

lemma stepAll_inRange (N : Int) (hN : 0 < N) (s : SimState) (rs : List Rat)
    (b : Ant) (hb : b ∈ (stepAll N s rs).ants) : InRange N b :=
  moveAll_inRange N hN s.ants s.g rs b hb

lemma runSteps_inRange (N : Int) (hN : 0 < N) (rss : List (List Rat))
    (s : SimState) (hs : ∀ b ∈ s.ants, InRange N b) :
    ∀ b ∈ (runSteps N s rss).ants, InRange N b := by
  induction rss generalizing s with
  | nil => exact hs
  | cons rs rest ih => exact ih _ (fun b hb => stepAll_inRange N hN s rs b hb)

/-- C9: toroidal closure — after any number of stepAll calls from the
initial state, every agent's position satisfies 0 ≤ x < N and 0 ≤ y < N
(each move takes both coordinates modulo N). -/
theorem positions_in_range (d1 d2 : Nat) (rss : List (List Rat)) (a : Ant)
    (ha : a ∈ (runSteps GRID_SIZE (initSim d1 d2) rss).ants) :
    0 ≤ a.x ∧ a.x < GRID_SIZE ∧ 0 ≤ a.y ∧ a.y < GRID_SIZE := by
  refine runSteps_inRange GRID_SIZE (by norm_num [GRID_SIZE]) rss (initSim d1 d2)
    ?_ a ha
  intro b hb
  simp only [initSim, List.mem_cons, List.not_mem_nil, or_false] at hb
  rcases hb with hb | hb <;> subst hb <;>
    exact ⟨by norm_num, by norm_num [GRID_SIZE], by norm_num, by norm_num [GRID_SIZE]⟩

/-- Witness for C9 at the untouched initial state. -/
theorem positions_in_range_witness :
    ({ x := 500, y := 500, direction := 0, pheromone := 1 } : Ant) ∈
      (runSteps GRID_SIZE (initSim 0 0) []).ants ∧
    ((0:Int) ≤ 500 ∧ (500:Int) < GRID_SIZE ∧ (0:Int) ≤ 500 ∧ (500:Int) < GRID_SIZE) :=
  ⟨by simp [runSteps, initSim],
   positions_in_range 0 0 [] { x := 500, y := 500, direction := 0, pheromone := 1 }
     (by simp [runSteps, initSim])⟩

/-- C10: an agent on its own trail of strength s computes probability
0.8·s, which is strictly below the unscented 0.5 whenever 0 < s < 5/8,
equals it at s = 5/8, and exceeds it only for s > 5/8. -/
theorem own_trail_threshold (p : Nat) (s : Rat) :
    (0 < s → s < 5/8 → moveStraightProb p p s < 1/2) ∧
    (5/8 < s → 1/2 < moveStraightProb p p s) ∧
    moveStraightProb p p (5/8) = 1/2 ∧
    (p ≠ 0 → moveStraightProb p 0 s = 1/2) := by
  have hown : ∀ t : Rat, moveStraightProb p p t = 8/10 * t := by
    intro t
    unfold moveStraightProb
    rw [if_pos rfl]
  refine ⟨?_, ?_, ?_, ?_⟩
  · intro h1 h2
    rw [hown]
    linarith
  · intro h
    rw [hown]
    linarith
  · rw [hown]
    norm_num
  · intro hnz
    unfold moveStraightProb
    rw [if_neg (fun hEq => hnz hEq.symm), if_neg (not_not.mpr rfl)]

/-- Witness for C10 at s = 1/2: the own-trail probability 2/5 is below
the unscented 1/2. -/
theorem own_trail_threshold_witness :
    ((0:Rat) < 1/2 ∧ (1/2:Rat) < 5/8 ∧ moveStraightProb 1 1 (1/2) < 1/2) ∧
    ((1:Nat) ≠ 0 ∧ moveStraightProb 1 0 (1/2) = 1/2) :=
  ⟨⟨by norm_num, by norm_num,
    (own_trail_threshold 1 (1/2)).1 (by norm_num) (by norm_num)⟩,
   ⟨by norm_num, (own_trail_threshold 1 (1/2)).2.2.2 (by norm_num)⟩⟩
